import Mathlib

/-!
Verification of `src/src/components/ROICalculator.tsx`.

The source computes with JavaScript IEEE-754 doubles.  We idealise finite
doubles as exact real numbers, but keep the non-finite values the source can
actually produce (`NaN`, `+Infinity`, `-Infinity`) as explicit constructors
of a type `JSVal`, together with the ECMAScript semantics of every arithmetic
operation the source uses (`+`, `-`, `*`, `/`, `Math.pow`, `Math.max`, `>`).
Rounding error is out of scope; the NaN/Infinity structure of the
computation does not depend on it.

The slider geometry code (`getValueFromEvent`) only uses field operations,
`Math.min`/`Math.max` and `Math.round` on finite values, so it is embedded
over `ℚ` and is fully executable (`Math.round x` in JavaScript is
`⌊x + 1/2⌋`, rounding half-way cases towards `+∞`).
-/

namespace Roi

/-! ### Slider: `getValueFromEvent` and the pointer state machine (ℚ model) -/

/-- The fields of `getBoundingClientRect()` that the slider reads. -/
structure Rect where
  left : ℚ
  width : ℚ
deriving DecidableEq

/-- JavaScript `Math.round`: round half-way cases towards `+∞`. -/
def jsRound (x : ℚ) : ℤ := ⌊x + 1 / 2⌋

/-- `getValueFromEvent` (ROICalculator.tsx lines 169-175).  `track = none`
models `trackRef.current` being `null` (geometry unavailable); in that case
the current `value` is returned unchanged.  Otherwise
`ratio = clamp((clientX - rect.left) / rect.width, 0, 1)`,
`raw = min + ratio * (max - min)`, result `Math.round(raw / step) * step`. -/
def getValueFromEvent (track : Option Rect) (value vmin vmax step clientX : ℚ) : ℚ :=
  match track with
  | none => value
  | some rect =>
      let frac : ℚ := max 0 (min 1 ((clientX - rect.left) / rect.width))
      let raw : ℚ := vmin + frac * (vmax - vmin)
      ((jsRound (raw / step) : ℤ) : ℚ) * step

/-- Per-slider configuration (`min`, `max`, `step` from `SLIDER_CONFIG`). -/
structure SliderConfig where
  vmin : ℚ
  vmax : ℚ
  step : ℚ
deriving DecidableEq

/-- Per-slider state: the current value (the `value` prop, written back by the
host on every `onChange`) and the `isDragging` flag. -/
structure SliderState where
  value : ℚ
  isDragging : Bool
deriving DecidableEq

/-- Pointer events delivered to the track element.  Each event carries the
track geometry visible at dispatch time (`trackRef.current`), since
`getValueFromEvent` reads it per call. -/
inductive PointerEv where
  | down (track : Option Rect) (clientX : ℚ)
  | move (track : Option Rect) (clientX : ℚ)
  | up

/-- One step of the slider's event handling (ROICalculator.tsx lines 177-191):
`handlePointerDown` sets `isDragging := true` and emits
`getValueFromEvent(clientX)`; `handlePointerMove` returns immediately when
`isDragging` is false and otherwise emits `getValueFromEvent(clientX)`
unconditionally; `handlePointerUp`/`handlePointerCancel` clear `isDragging`.
The second component is the `onChange` emission, if any; the host writes every
emitted value back into the `value` prop. -/
def sliderStep (cfg : SliderConfig) (s : SliderState) : PointerEv → SliderState × Option ℚ
  | .down track clientX =>
      let v := getValueFromEvent track s.value cfg.vmin cfg.vmax cfg.step clientX
      (⟨v, true⟩, some v)
  | .move track clientX =>
      if s.isDragging then
        let v := getValueFromEvent track s.value cfg.vmin cfg.vmax cfg.step clientX
        (⟨v, true⟩, some v)
      else (s, none)
  | .up => (⟨s.value, false⟩, none)

/-- Reachability of slider states from an initial state by pointer events. -/
inductive Reaches (cfg : SliderConfig) (s0 : SliderState) : SliderState → Prop where
  | refl : Reaches cfg s0 s0
  | tail {s s' : SliderState} {e : PointerEv} {out : Option ℚ} :
      Reaches cfg s0 s → sliderStep cfg s e = (s', out) → Reaches cfg s0 s'

/-! ### JavaScript number values and arithmetic -/

noncomputable section
open scoped Classical
open Real

/-- A JavaScript number, idealised: an exact real, or one of the three
non-finite values. -/
inductive JSVal : Type where
  | nan : JSVal
  | posInf : JSVal
  | negInf : JSVal
  | num : ℝ → JSVal

/-- JavaScript addition. -/
def jadd : JSVal → JSVal → JSVal
  | .nan, _ => .nan
  | _, .nan => .nan
  | .posInf, .negInf => .nan
  | .negInf, .posInf => .nan
  | .posInf, _ => .posInf
  | .negInf, _ => .negInf
  | .num _, .posInf => .posInf
  | .num _, .negInf => .negInf
  | .num a, .num b => .num (a + b)

/-- JavaScript subtraction. -/
def jsub : JSVal → JSVal → JSVal
  | .nan, _ => .nan
  | _, .nan => .nan
  | .posInf, .posInf => .nan
  | .negInf, .negInf => .nan
  | .posInf, _ => .posInf
  | .negInf, _ => .negInf
  | .num _, .posInf => .negInf
  | .num _, .negInf => .posInf
  | .num a, .num b => .num (a - b)

/-- JavaScript multiplication (`±∞ * 0 = NaN`). -/
def jmul : JSVal → JSVal → JSVal
  | .nan, _ => .nan
  | _, .nan => .nan
  | .posInf, .posInf => .posInf
  | .posInf, .negInf => .negInf
  | .negInf, .posInf => .negInf
  | .negInf, .negInf => .posInf
  | .posInf, .num b => if 0 < b then .posInf else if b < 0 then .negInf else .nan
  | .negInf, .num b => if 0 < b then .negInf else if b < 0 then .posInf else .nan
  | .num a, .posInf => if 0 < a then .posInf else if a < 0 then .negInf else .nan
  | .num a, .negInf => if 0 < a then .negInf else if a < 0 then .posInf else .nan
  | .num a, .num b => .num (a * b)

/-- JavaScript division.  Every zero divisor arising in the source is a `+0`
(a sum or product of non-negative quantities, or a positive literal), so the
zero divisor case follows the `+0` rules: `x / 0` is `+∞`, `-∞` or `NaN`
according to the sign of `x`. -/
def jdiv : JSVal → JSVal → JSVal
  | .nan, _ => .nan
  | _, .nan => .nan
  | .posInf, .posInf => .nan
  | .posInf, .negInf => .nan
  | .negInf, .posInf => .nan
  | .negInf, .negInf => .nan
  | .posInf, .num b => if 0 ≤ b then .posInf else .negInf
  | .negInf, .num b => if 0 ≤ b then .negInf else .posInf
  | .num _, .posInf => .num 0
  | .num _, .negInf => .num 0
  | .num a, .num b =>
      if b = 0 then (if 0 < a then .posInf else if a < 0 then .negInf else .nan)
      else .num (a / b)

/-- JavaScript `Math.max` on two arguments (NaN-propagating). -/
def jmax : JSVal → JSVal → JSVal
  | .nan, _ => .nan
  | _, .nan => .nan
  | .posInf, _ => .posInf
  | _, .posInf => .posInf
  | .negInf, y => y
  | x, .negInf => x
  | .num a, .num b => .num (max a b)

/-- The real `y` is an integer (used by `Math.pow` for negative bases). -/
def isIntR (y : ℝ) : Prop := ∃ k : ℤ, (k : ℝ) = y

/-- The real `y` is an odd integer. -/
def isOddIntR (y : ℝ) : Prop := ∃ k : ℤ, 2 * (k : ℝ) + 1 = y

/-- JavaScript `Math.pow`, following the ECMAScript `Number::exponentiate`
case analysis: NaN exponent gives NaN; zero exponent gives 1 (whatever the
base); a negative finite base with a non-integer finite exponent gives NaN;
a negative base with an integer exponent gives the real power (which is what
`Real.rpow` computes there as well); `0 ** y` is `0` for `y > 0` and `+∞` for
`y < 0` (the base is a `+0` everywhere it occurs in the source). -/
def jpow : JSVal → JSVal → JSVal
  | _, .nan => .nan
  | x, .num y =>
      if y = 0 then .num 1
      else
        match x with
        | .nan => .nan
        | .posInf => if 0 < y then .posInf else .num 0
        | .negInf => if 0 < y then (if isOddIntR y then .negInf else .posInf) else .num 0
        | .num b =>
            if 0 < b then .num (b ^ y)
            else if b = 0 then (if 0 < y then .num 0 else .posInf)
            else if isIntR y then .num (b ^ y) else .nan
  | x, .posInf =>
      match x with
      | .nan => .nan
      | .posInf => .posInf
      | .negInf => .posInf
      | .num b => if b = 1 ∨ b = -1 then .nan else if 1 < |b| then .posInf else .num 0
  | x, .negInf =>
      match x with
      | .nan => .nan
      | .posInf => .num 0
      | .negInf => .num 0
      | .num b => if b = 1 ∨ b = -1 then .nan else if 1 < |b| then .num 0 else .posInf

/-- The JavaScript comparison `v > 0` (false on NaN and `-∞`). -/
def jgtZero : JSVal → Prop
  | .posInf => True
  | .num a => 0 < a
  | _ => False

/-- `v` is a finite number (neither NaN nor an infinity). -/
def JSVal.isFinite : JSVal → Prop
  | .num _ => True
  | _ => False

/-- The real value of a finite `JSVal` (junk `0` on non-finite values). -/
def JSVal.toReal : JSVal → ℝ
  | .num a => a
  | _ => 0

/-- `v` is a finite number or NaN (not an infinity). -/
def numOrNan (v : JSVal) : Prop := v = .nan ∨ ∃ x : ℝ, v = .num x

/-! ### The ROI model (`calculateROI`, ROICalculator.tsx lines 89-146) -/

/-- The input record (the shape of `DEFAULTS`); all fields are finite
numbers.  Per the spec, all fields are non-negative reals except the
growth/inflation rates, which may be any real. -/
structure Inputs where
  preMbaSalary : ℝ
  postMbaSalary : ℝ
  signingBonus : ℝ
  tuitionAndExpenses : ℝ
  loanAmount : ℝ
  interestRate : ℝ
  loanTerm : ℝ
  programLength : ℝ
  investmentReturn : ℝ
  preMbaWageGrowth : ℝ
  postMbaWageGrowth : ℝ
  inflation : ℝ

/-- The `ROIResult` record returned by `calculateROI`. -/
structure ROIResult where
  annualizedROI : JSVal
  netROI : JSVal
  totalCost : JSVal
  tuitionExpenses : JSVal
  loanInterest : JSVal
  forgoneIncome : JSVal
  totalReturn : JSVal
  salaryEdge : JSVal
  bonusCompounded : JSVal

/-- `realPreGrowth = (preMbaWageGrowth - inflation) / 100` (line 97). -/
def realPreGrowth (i : Inputs) : JSVal :=
  jdiv (jsub (.num i.preMbaWageGrowth) (.num i.inflation)) (.num 100)

/-- `realPostGrowth = (postMbaWageGrowth - inflation) / 100` (line 98). -/
def realPostGrowth (i : Inputs) : JSVal :=
  jdiv (jsub (.num i.postMbaWageGrowth) (.num i.inflation)) (.num 100)

/-- `realRate = Math.max((interestRate - inflation) / 100, 0)` (line 99). -/
def realRate (i : Inputs) : JSVal :=
  jmax (jdiv (jsub (.num i.interestRate) (.num i.inflation)) (.num 100)) (.num 0)

/-- `realInvestReturn = (5.5 - inflation) / 100` (line 100); note the
hard-coded nominal `5.5`, not the `investmentReturn` input. -/
def realInvestReturn (i : Inputs) : JSVal :=
  jdiv (jsub (.num 5.5) (.num i.inflation)) (.num 100)

/-- `monthlyPreMba = preMbaSalary / 12` (line 103). -/
def monthlyPreMba (i : Inputs) : JSVal := jdiv (.num i.preMbaSalary) (.num 12)

/-- `forgoneIncome = monthlyPreMba * programLength` (line 104). -/
def forgoneIncome (i : Inputs) : JSVal := jmul (monthlyPreMba i) (.num i.programLength)

/-- Loan interest (lines 107-113): guarded amortization total interest. -/
def loanInterest (i : Inputs) : JSVal :=
  if jgtZero (.num i.loanAmount) ∧ jgtZero (realRate i) ∧ jgtZero (.num i.loanTerm) then
    let monthlyRate := jdiv (realRate i) (.num 12)
    let numPayments := jmul (.num i.loanTerm) (.num 12)
    let monthlyPayment :=
      jdiv (jmul (.num i.loanAmount)
              (jmul monthlyRate (jpow (jadd (.num 1) monthlyRate) numPayments)))
        (jsub (jpow (jadd (.num 1) monthlyRate) numPayments) (.num 1))
    jsub (jmul monthlyPayment numPayments) (.num i.loanAmount)
  else .num 0

/-- `totalCost = tuitionAndExpenses + forgoneIncome + loanInterest` (line 115). -/
def totalCost (i : Inputs) : JSVal :=
  jadd (jadd (.num i.tuitionAndExpenses) (forgoneIncome i)) (loanInterest i)

/-- One iteration of the 10-year salary advantage loop (lines 119-123).  The
source iterates `year = 1, …, 10`; here the fold index `y` ranges over
`0, …, 9` with `year = y + 1`, and the loop body is translated verbatim:
`salaryEdge += postSalary - preSalary` with
`postSalary = postMbaSalary * Math.pow(1 + realPostGrowth, year - 1)` and
`preSalary = preMbaSalary * Math.pow(1 + realPreGrowth, year - 1 + programLength / 12)`. -/
def salaryYearStepFn (i : Inputs) (acc : JSVal) (y : ℕ) : JSVal :=
  let year : JSVal := .num ((y : ℝ) + 1)
  let postSalary :=
    jmul (.num i.postMbaSalary)
      (jpow (jadd (.num 1) (realPostGrowth i)) (jsub year (.num 1)))
  let preSalary :=
    jmul (.num i.preMbaSalary)
      (jpow (jadd (.num 1) (realPreGrowth i))
        (jadd (jsub year (.num 1)) (jdiv (.num i.programLength) (.num 12))))
  jadd acc (jsub postSalary preSalary)

/-- The 10-year salary advantage loop (lines 118-123). -/
def salaryEdge (i : Inputs) : JSVal :=
  (List.range 10).foldl (salaryYearStepFn i) (.num 0)

/-- `bonusCompounded = signingBonus * Math.pow(1 + realInvestReturn, 10)` (line 126). -/
def bonusCompounded (i : Inputs) : JSVal :=
  jmul (.num i.signingBonus) (jpow (jadd (.num 1) (realInvestReturn i)) (.num 10))

/-- `totalReturn = salaryEdge + bonusCompounded` (line 128). -/
def totalReturn (i : Inputs) : JSVal := jadd (salaryEdge i) (bonusCompounded i)

/-- `netROI = totalReturn - totalCost` (line 129). -/
def netROI (i : Inputs) : JSVal := jsub (totalReturn i) (totalCost i)

/-- `grossRatio = totalReturn / totalCost` (line 132). -/
def grossRatioVal (i : Inputs) : JSVal := jdiv (totalReturn i) (totalCost i)

/-- `annualizedROI = grossRatio > 0 ? (Math.pow(grossRatio, 1/10) - 1) * 100 : 0`
(line 133). -/
def annualizedROI (i : Inputs) : JSVal :=
  if jgtZero (grossRatioVal i) then
    jmul (jsub (jpow (grossRatioVal i) (jdiv (.num 1) (.num 10))) (.num 1)) (.num 100)
  else .num 0

/-- `calculateROI` assembling the result record (lines 135-145). -/
def calculateROI (i : Inputs) : ROIResult :=
  ⟨annualizedROI i, netROI i, totalCost i, .num i.tuitionAndExpenses, loanInterest i,
    forgoneIncome i, totalReturn i, salaryEdge i, bonusCompounded i⟩

/-! ### Real-valued companions used to state and prove the claims -/

/-- The (always finite) value of the floored real loan rate. -/
def realRateR (i : Inputs) : ℝ := max ((i.interestRate - i.inflation) / 100) 0

/-- Total amortization interest for principal `L`, monthly rate `m` and
`n` payments, as computed by the guarded branch of the source. -/
def amort (L m n : ℝ) : ℝ := L * (m * (1 + m) ^ n) / ((1 + m) ^ n - 1) * n - L

/-- Real value of the source's `loanInterest` local. -/
def loanInterestR (i : Inputs) : ℝ :=
  if 0 < i.loanAmount ∧ 0 < realRateR i ∧ 0 < i.loanTerm then
    amort i.loanAmount (realRateR i / 12) (i.loanTerm * 12)
  else 0

/-- Monthly payment formula as the spec states it (§4.1 step 3):
`P = L × (r × (1+r)^n) / ((1+r)^n − 1)`. -/
def specMonthlyPayment (L r n : ℝ) : ℝ := L * (r * (1 + r) ^ n) / ((1 + r) ^ n - 1)

/-- Total loan interest as the spec states it: `P×n − L`. -/
def specLoanInterest (L r n : ℝ) : ℝ := specMonthlyPayment L r n * n - L

/-- Year-`y` post-MBA salary from the spec's salary-advantage formula:
`postSalary0 × (1+realPostGrowth)^(y−1)`. -/
def specPostSalary (i : Inputs) (y : ℕ) : ℝ :=
  i.postMbaSalary * (1 + (i.postMbaWageGrowth - i.inflation) / 100) ^ ((y : ℝ) - 1)

/-- Year-`y` counterfactual pre-MBA salary from the spec's formula:
`preSalary0 × (1+realPreGrowth)^(y−1+monthsAway/12)`. -/
def specPreSalary (i : Inputs) (y : ℕ) : ℝ :=
  i.preMbaSalary * (1 + (i.preMbaWageGrowth - i.inflation) / 100) ^ ((y : ℝ) - 1 + i.programLength / 12)

/-- Real value of one year's contribution to `salaryEdge` (fold index `y`,
i.e. source year `y + 1`), when no NaN arises. -/
def salaryTermR (i : Inputs) (y : ℕ) : ℝ :=
  i.postMbaSalary * (1 + (i.postMbaWageGrowth - i.inflation) / 100) ^ (y : ℝ)
    - i.preMbaSalary *
        (1 + (i.preMbaWageGrowth - i.inflation) / 100) ^ ((y : ℝ) + i.programLength / 12)

/-! ### Concrete inputs used by counterexamples and witnesses -/

/-- Zero cost but positive return: only `postMbaSalary` (`= 10`) is non-zero
(field order: preMbaSalary, postMbaSalary, signingBonus, tuitionAndExpenses,
loanAmount, interestRate, loanTerm, programLength, investmentReturn,
preMbaWageGrowth, postMbaWageGrowth, inflation). -/
def exZeroCost : Inputs := ⟨0, 10, 0, 0, 0, 0, 0, 0, 0, 0, 0, 0⟩

/-- Positive total cost `100` (tuition), total return `50` strictly below it
(`postMbaSalary = 5` contributes `5` per year for 10 years). -/
def exHalfReturn : Inputs := ⟨0, 5, 0, 100, 0, 0, 0, 0, 0, 0, 0, 0⟩

/-- Tuition `1`, everything else zero: positive total cost, zero return. -/
def exTuitionOne : Inputs := ⟨0, 0, 0, 1, 0, 0, 0, 0, 0, 0, 0, 0⟩

/-- Inflation `200` (allowed: rates may be any real) with one month away:
the pre-MBA growth ratio is `1 + (0-200)/100 = -1 < 0` and the fractional
exponent `programLength/12 = 1/12` makes `Math.pow` return NaN. -/
def exNanGrowth : Inputs := ⟨0, 0, 0, 0, 0, 0, 0, 1, 0, 0, 0, 200⟩

end

open Real

/-! ### Basic facts about the JavaScript operations -/

theorem jadd_num_num (a b : ℝ) : jadd (.num a) (.num b) = .num (a + b) := rfl

theorem jsub_num_num (a b : ℝ) : jsub (.num a) (.num b) = .num (a - b) := rfl

theorem jmul_num_num (a b : ℝ) : jmul (.num a) (.num b) = .num (a * b) := rfl

theorem jmax_num_num (a b : ℝ) : jmax (.num a) (.num b) = .num (max a b) := rfl

theorem jdiv_num_num {b : ℝ} (a : ℝ) (h : b ≠ 0) : jdiv (.num a) (.num b) = .num (a / b) := by
  simp [jdiv, h]

theorem jdiv_num_zero_pos {a : ℝ} (h : 0 < a) : jdiv (.num a) (.num 0) = .posInf := by
  simp [jdiv, h]

theorem jdiv_num_zero_neg {a : ℝ} (h : a < 0) : jdiv (.num a) (.num 0) = .negInf := by
  simp [jdiv, h, asymm h]

theorem jdiv_num_zero_zero : jdiv (.num 0) (.num 0) = .nan := by simp [jdiv]

theorem jgtZero_num (a : ℝ) : jgtZero (.num a) ↔ 0 < a := Iff.rfl

theorem jadd_nan_left (x : JSVal) : jadd .nan x = .nan := by cases x <;> rfl

theorem jadd_nan_right (x : JSVal) : jadd x .nan = .nan := by cases x <;> rfl

theorem jsub_nan_left (x : JSVal) : jsub .nan x = .nan := by cases x <;> rfl

theorem jsub_nan_right (x : JSVal) : jsub x .nan = .nan := by cases x <;> rfl

theorem jmul_nan_right (x : JSVal) : jmul x .nan = .nan := by cases x <;> rfl

theorem jdiv_nan_left (x : JSVal) : jdiv .nan x = .nan := by cases x <;> rfl

theorem jpow_num_pos {b : ℝ} (hb : 0 < b) (y : ℝ) : jpow (.num b) (.num y) = .num (b ^ y) := by
  by_cases hy : y = 0
  · subst hy; simp [jpow, Real.rpow_zero]
  · simp [jpow, hy, hb]

theorem jpow_num_nonneg {b y : ℝ} (hb : 0 ≤ b) (hy : 0 ≤ y) :
    jpow (.num b) (.num y) = .num (b ^ y) := by
  rcases hb.lt_or_eq with hb' | hb'
  · exact jpow_num_pos hb' y
  · rcases hb' with rfl
    by_cases hy0 : y = 0
    · subst hy0; simp [jpow, Real.rpow_zero]
    · have hy' : 0 < y := lt_of_le_of_ne hy (Ne.symm hy0)
      simp [jpow, hy0, hy', Real.zero_rpow hy0]

theorem jpow_num_isInt {y : ℝ} (hk : isIntR y) (hy : 0 ≤ y) (b : ℝ) :
    jpow (.num b) (.num y) = .num (b ^ y) := by
  rcases lt_trichotomy b 0 with hb | hb | hb
  · by_cases hy0 : y = 0
    · subst hy0; simp [jpow, Real.rpow_zero]
    · simp [jpow, hy0, hb.not_lt, hb.ne, hk]
  · rcases hb with rfl; exact jpow_num_nonneg le_rfl hy
  · exact jpow_num_pos hb y

theorem jpow_num_nan {b y : ℝ} (hb : b < 0) (hnk : ¬ isIntR y) :
    jpow (.num b) (.num y) = .nan := by
  have hy0 : y ≠ 0 := by rintro rfl; exact hnk ⟨0, by norm_num⟩
  simp [jpow, hy0, hb.not_lt, hb.ne, hnk]

theorem jpow_num_zero_exp (x : JSVal) : jpow x (.num 0) = .num 1 := by
  cases x <;> simp [jpow]

theorem jpow_posInf_pos {y : ℝ} (hy : 0 < y) : jpow .posInf (.num y) = .posInf := by
  simp [jpow, hy.ne', hy]

theorem jpow_num_numOrNan (b : ℝ) {y : ℝ} (hy : 0 ≤ y) : numOrNan (jpow (.num b) (.num y)) := by
  rcases lt_trichotomy b 0 with hb | hb | hb
  · by_cases hk : isIntR y
    · exact Or.inr ⟨_, jpow_num_isInt hk hy b⟩
    · exact Or.inl (jpow_num_nan hb hk)
  · rcases hb with rfl; exact Or.inr ⟨_, jpow_num_nonneg le_rfl hy⟩
  · exact Or.inr ⟨_, jpow_num_pos hb y⟩

theorem numOrNan_jadd {v w : JSVal} (hv : numOrNan v) (hw : numOrNan w) : numOrNan (jadd v w) := by
  rcases hv with rfl | ⟨x, rfl⟩
  · exact Or.inl (jadd_nan_left w)
  · rcases hw with rfl | ⟨y, rfl⟩
    · exact Or.inl (jadd_nan_right _)
    · exact Or.inr ⟨x + y, rfl⟩

theorem numOrNan_jsub {v w : JSVal} (hv : numOrNan v) (hw : numOrNan w) : numOrNan (jsub v w) := by
  rcases hv with rfl | ⟨x, rfl⟩
  · exact Or.inl (jsub_nan_left w)
  · rcases hw with rfl | ⟨y, rfl⟩
    · exact Or.inl (jsub_nan_right _)
    · exact Or.inr ⟨x - y, rfl⟩

theorem numOrNan_jmul_num (a : ℝ) {v : JSVal} (hv : numOrNan v) : numOrNan (jmul (.num a) v) := by
  rcases hv with rfl | ⟨x, rfl⟩
  · exact Or.inl (jmul_nan_right _)
  · exact Or.inr ⟨a * x, rfl⟩

/-! ### Projections of `calculateROI` -/

theorem calculateROI_annualizedROI (i : Inputs) :
    (calculateROI i).annualizedROI = annualizedROI i := rfl

theorem calculateROI_netROI (i : Inputs) : (calculateROI i).netROI = netROI i := rfl

theorem calculateROI_totalCost (i : Inputs) : (calculateROI i).totalCost = totalCost i := rfl

theorem calculateROI_tuitionExpenses (i : Inputs) :
    (calculateROI i).tuitionExpenses = .num i.tuitionAndExpenses := rfl

theorem calculateROI_loanInterest (i : Inputs) :
    (calculateROI i).loanInterest = loanInterest i := rfl

theorem calculateROI_forgoneIncome (i : Inputs) :
    (calculateROI i).forgoneIncome = forgoneIncome i := rfl

theorem calculateROI_totalReturn (i : Inputs) :
    (calculateROI i).totalReturn = totalReturn i := rfl

theorem calculateROI_salaryEdge (i : Inputs) : (calculateROI i).salaryEdge = salaryEdge i := rfl

theorem calculateROI_bonusCompounded (i : Inputs) :
    (calculateROI i).bonusCompounded = bonusCompounded i := rfl

theorem getValueFromEvent_eval (l w value vmin vmax step clientX : ℚ) (k : ℤ)
    (hk : ⌊(vmin + max 0 (min 1 ((clientX - l) / w)) * (vmax - vmin)) / step + 1 / 2⌋ = k) :
    getValueFromEvent (some ⟨l, w⟩) value vmin vmax step clientX = (k : ℚ) * step := by
  simp only [getValueFromEvent, jsRound]
  rw [hk]

/-! ### Constant-folding the components of `calculateROI` -/

theorem realPreGrowth_eq (i : Inputs) :
    realPreGrowth i = .num ((i.preMbaWageGrowth - i.inflation) / 100) := by
  rw [realPreGrowth, jsub_num_num, jdiv_num_num _ (by norm_num : (100:ℝ) ≠ 0)]

theorem realPostGrowth_eq (i : Inputs) :
    realPostGrowth i = .num ((i.postMbaWageGrowth - i.inflation) / 100) := by
  rw [realPostGrowth, jsub_num_num, jdiv_num_num _ (by norm_num : (100:ℝ) ≠ 0)]

theorem realRate_eq (i : Inputs) : realRate i = .num (realRateR i) := by
  rw [realRate, jsub_num_num, jdiv_num_num _ (by norm_num : (100:ℝ) ≠ 0), jmax_num_num,
    realRateR]

theorem realInvestReturn_eq (i : Inputs) :
    realInvestReturn i = .num ((5.5 - i.inflation) / 100) := by
  rw [realInvestReturn, jsub_num_num, jdiv_num_num _ (by norm_num : (100:ℝ) ≠ 0)]

theorem forgoneIncome_eq (i : Inputs) :
    forgoneIncome i = .num (i.preMbaSalary / 12 * i.programLength) := by
  rw [forgoneIncome, monthlyPreMba, jdiv_num_num _ (by norm_num : (12:ℝ) ≠ 0), jmul_num_num]

theorem bonusCompounded_eq (i : Inputs) :
    bonusCompounded i = .num (i.signingBonus * (1 + (5.5 - i.inflation) / 100) ^ (10:ℝ)) := by
  rw [bonusCompounded, realInvestReturn_eq, jadd_num_num,
    jpow_num_isInt (show isIntR (10:ℝ) from ⟨10, by norm_num⟩) (by norm_num), jmul_num_num]

theorem loanInterest_eq (i : Inputs) : loanInterest i = .num (loanInterestR i) := by
  simp only [loanInterest, loanInterestR]
  rw [realRate_eq, apply_ite JSVal.num]
  by_cases h : 0 < i.loanAmount ∧ 0 < realRateR i ∧ 0 < i.loanTerm
  · rw [if_pos h, if_pos (show jgtZero (.num i.loanAmount) ∧ jgtZero (.num (realRateR i)) ∧
      jgtZero (.num i.loanTerm) from h)]
    obtain ⟨-, hr, hT⟩ := h
    have hm : 0 < realRateR i / 12 := by positivity
    have hbase : (0:ℝ) < 1 + realRateR i / 12 := by linarith
    have hn : (0:ℝ) < i.loanTerm * 12 := by positivity
    have hP : (1:ℝ) < (1 + realRateR i / 12) ^ (i.loanTerm * 12) :=
      (Real.one_lt_rpow_iff_of_pos hbase).mpr (Or.inl ⟨by linarith, hn⟩)
    rw [jdiv_num_num _ (by norm_num : (12:ℝ) ≠ 0), jmul_num_num, jadd_num_num,
      jpow_num_pos hbase, jmul_num_num, jmul_num_num, jsub_num_num,
      jdiv_num_num _ (sub_pos.mpr hP).ne', jmul_num_num, jsub_num_num, amort]
  · rw [if_neg h, if_neg (show ¬ (jgtZero (.num i.loanAmount) ∧ jgtZero (.num (realRateR i)) ∧
      jgtZero (.num i.loanTerm)) from h)]

theorem totalCost_eq (i : Inputs) :
    totalCost i
      = .num (i.tuitionAndExpenses + i.preMbaSalary / 12 * i.programLength + loanInterestR i) := by
  rw [totalCost, forgoneIncome_eq, loanInterest_eq, jadd_num_num, jadd_num_num]

theorem salaryYearStepFn_num (i : Inputs)
    (hb : 0 ≤ 1 + (i.preMbaWageGrowth - i.inflation) / 100) (hpl : 0 ≤ i.programLength)
    (y : ℕ) (a : ℝ) :
    salaryYearStepFn i (.num a) y = .num (a + salaryTermR i y) := by
  simp only [salaryYearStepFn, realPostGrowth_eq, realPreGrowth_eq]
  rw [jdiv_num_num i.programLength (by norm_num : (12:ℝ) ≠ 0)]
  simp only [jsub_num_num, jadd_num_num]
  have he : (y : ℝ) + 1 - 1 = (y : ℝ) := by ring
  rw [he]
  rw [jpow_num_isInt (show isIntR ((y:ℕ):ℝ) from ⟨(y : ℤ), by push_cast; ring⟩)
    (Nat.cast_nonneg y)]
  rw [jpow_num_nonneg hb (add_nonneg (Nat.cast_nonneg y) (div_nonneg hpl (by norm_num)))]
  rw [jmul_num_num, jmul_num_num, jsub_num_num, jadd_num_num, salaryTermR]

theorem foldl_salary_nan (i : Inputs) : ∀ l : List ℕ,
    l.foldl (salaryYearStepFn i) .nan = .nan := by
  intro l
  induction l with
  | nil => rfl
  | cons y t ih =>
      rw [List.foldl_cons]
      have hstep : salaryYearStepFn i .nan y = .nan := by
        simp only [salaryYearStepFn]
        exact jadd_nan_left _
      rw [hstep, ih]

theorem foldl_salary_num (i : Inputs)
    (hb : 0 ≤ 1 + (i.preMbaWageGrowth - i.inflation) / 100) (hpl : 0 ≤ i.programLength) :
    ∀ (l : List ℕ) (a : ℝ),
      l.foldl (salaryYearStepFn i) (.num a) = .num (a + (l.map (salaryTermR i)).sum) := by
  intro l
  induction l with
  | nil => intro a; simp
  | cons y t ih =>
      intro a
      rw [List.foldl_cons, salaryYearStepFn_num i hb hpl y a, ih, List.map_cons,
        List.sum_cons, add_assoc]

theorem listRangeMapSum (f : ℕ → ℝ) : ∀ n : ℕ,
    ((List.range n).map f).sum = ∑ y ∈ Finset.range n, f y := by
  intro n
  induction n with
  | zero => simp
  | succ n ih =>
      rw [List.range_succ, List.map_append, List.sum_append, Finset.sum_range_succ, ih]
      simp

theorem salaryEdge_eq (i : Inputs)
    (hb : -1 ≤ (i.preMbaWageGrowth - i.inflation) / 100) (hpl : 0 ≤ i.programLength) :
    salaryEdge i = .num (∑ y ∈ Finset.range 10, salaryTermR i y) := by
  have hb' : 0 ≤ 1 + (i.preMbaWageGrowth - i.inflation) / 100 := by linarith
  rw [salaryEdge, foldl_salary_num i hb' hpl (List.range 10) 0, listRangeMapSum, zero_add]

theorem salaryYearStepFn_numOrNan (i : Inputs) (hpl : 0 ≤ i.programLength) {v : JSVal}
    (hv : numOrNan v) (y : ℕ) : numOrNan (salaryYearStepFn i v y) := by
  simp only [salaryYearStepFn, realPostGrowth_eq, realPreGrowth_eq]
  rw [jdiv_num_num i.programLength (by norm_num : (12:ℝ) ≠ 0)]
  simp only [jsub_num_num, jadd_num_num]
  have he : (y : ℝ) + 1 - 1 = (y : ℝ) := by ring
  rw [he]
  exact numOrNan_jadd hv
    (numOrNan_jsub
      (numOrNan_jmul_num _ (jpow_num_numOrNan _ (Nat.cast_nonneg y)))
      (numOrNan_jmul_num _ (jpow_num_numOrNan _
        (add_nonneg (Nat.cast_nonneg y) (div_nonneg hpl (by norm_num))))))

theorem salaryEdge_numOrNan (i : Inputs) (hpl : 0 ≤ i.programLength) :
    numOrNan (salaryEdge i) := by
  rw [salaryEdge]
  have hgen : ∀ (l : List ℕ) (v : JSVal), numOrNan v →
      numOrNan (l.foldl (salaryYearStepFn i) v) := by
    intro l
    induction l with
    | nil => intro v hv; exact hv
    | cons y t ih =>
        intro v hv
        rw [List.foldl_cons]
        exact ih _ (salaryYearStepFn_numOrNan i hpl hv y)
  exact hgen _ _ (Or.inr ⟨0, rfl⟩)

theorem totalReturn_numOrNan (i : Inputs) (hpl : 0 ≤ i.programLength) :
    numOrNan (totalReturn i) :=
  numOrNan_jadd (salaryEdge_numOrNan i hpl) (Or.inr ⟨_, bonusCompounded_eq i⟩)

theorem salaryEdge_nan (i : Inputs)
    (hneg : 1 + (i.preMbaWageGrowth - i.inflation) / 100 < 0)
    (hfr : ¬ isIntR (i.programLength / 12)) : salaryEdge i = .nan := by
  rw [salaryEdge]
  have h10 : List.range 10 = 0 :: [1, 2, 3, 4, 5, 6, 7, 8, 9] := rfl
  rw [h10, List.foldl_cons]
  have hstep : salaryYearStepFn i (.num 0) 0 = .nan := by
    simp only [salaryYearStepFn, realPostGrowth_eq, realPreGrowth_eq]
    rw [jdiv_num_num i.programLength (by norm_num : (12:ℝ) ≠ 0)]
    simp only [jsub_num_num, jadd_num_num]
    have e0 : ((0:ℕ) : ℝ) + 1 - 1 = 0 := by norm_num
    rw [e0]
    have e1 : (0:ℝ) + i.programLength / 12 = i.programLength / 12 := by ring
    rw [e1, jpow_num_zero_exp, jpow_num_nan hneg hfr, jmul_num_num, jmul_nan_right,
      jsub_nan_right, jadd_nan_right]
  rw [hstep, foldl_salary_nan]

/-! ### C9: geometry unavailable -/

/-- C9 (confirmed): for every pointer x-coordinate and control state, when the
track geometry is unavailable (`trackRef.current` is null), `getValueFromEvent`
returns the control's current value unchanged; being a total function, it
cannot fail or return anything else. -/
theorem c9_geometry_unavailable (value vmin vmax step clientX : ℚ) :
    getValueFromEvent none value vmin vmax step clientX = value := rfl

/-! ### C10: `investmentReturn` is dead input -/

/-- C10 (confirmed): the output of `calculateROI` does not depend on the
`investmentReturn` field: two input records differing only in that field give
identical results in every field (the bonus compounding uses the hard-coded
nominal `5.5` minus inflation, never the input). -/
theorem c10_investmentReturn_independent (i : Inputs) (v : ℝ) :
    calculateROI { i with investmentReturn := v } = calculateROI i := by
  cases i; rfl

/-! ### C3: quantization of `getValueFromEvent` -/

/-- C3, counterexample: with `min = 1 < max = 2`, `step = 10 > 0`, available
track geometry (left 0, width 100) and pointer at 0, the returned value is
`round(1/10)*10 = 0`, which is below `min` (and not of the form
`min + k*step`): the claim fails for configurations whose `min` is not a
multiple of `step`. -/
theorem c3_counterexample :
    getValueFromEvent (some ⟨0, 100⟩) 1 1 2 10 0 = 0 ∧
      ¬ (1 ≤ getValueFromEvent (some ⟨0, 100⟩) 1 1 2 10 0) := by
  have hk : ⌊((1 : ℚ) + max 0 (min 1 (((0 : ℚ) - 0) / 100)) * (2 - 1)) / 10 + 1 / 2⌋ = 0 := by
    have h1 : ((1 : ℚ) + max 0 (min 1 (((0 : ℚ) - 0) / 100)) * (2 - 1)) / 10 + 1 / 2
        = 3 / 5 := by
      norm_num [min_def, max_def]
    rw [h1, Int.floor_eq_zero_iff, Set.mem_Ico]
    constructor <;> norm_num
  have h := getValueFromEvent_eval 0 100 1 1 2 10 0 0 hk
  rw [h]
  norm_num

/-- C3 (corrected): for every pointer x-coordinate (including positions far
outside the track), any `min ≤ max` and `step > 0` such that `min` and `max`
are integer multiples of `step` (as in every configuration of
`SLIDER_CONFIG`), and any available track geometry of positive width,
`getValueFromEvent` returns a value in `[min, max]` of the form
`min + k·step` with `k : ℕ`. -/
theorem c3_quantized_in_range (l w value vmin vmax step clientX : ℚ)
    (_hw : 0 < w) (hs : 0 < step)
    (ha : ∃ a : ℤ, vmin = a * step) (hb : ∃ b : ℤ, vmax = b * step)
    (hminmax : vmin ≤ vmax) :
    vmin ≤ getValueFromEvent (some ⟨l, w⟩) value vmin vmax step clientX ∧
      getValueFromEvent (some ⟨l, w⟩) value vmin vmax step clientX ≤ vmax ∧
      ∃ k : ℕ, getValueFromEvent (some ⟨l, w⟩) value vmin vmax step clientX
          = vmin + (k : ℚ) * step := by
  obtain ⟨a, rfl⟩ := ha
  obtain ⟨b, rfl⟩ := hb
  set t : ℚ := (clientX - l) / w with ht
  set frac : ℚ := max 0 (min 1 t) with hfrac
  have hfrac0 : 0 ≤ frac := le_max_left _ _
  have hfrac1 : frac ≤ 1 := max_le (by norm_num) (min_le_left _ _)
  set raw : ℚ := (a : ℚ) * step + frac * ((b : ℚ) * step - (a : ℚ) * step) with hraw
  have hraw_lb : (a : ℚ) * step ≤ raw := by
    have : 0 ≤ frac * ((b : ℚ) * step - (a : ℚ) * step) :=
      mul_nonneg hfrac0 (by linarith)
    linarith
  have hraw_ub : raw ≤ (b : ℚ) * step := by
    have h1 : frac * ((b : ℚ) * step - (a : ℚ) * step) ≤ (b : ℚ) * step - (a : ℚ) * step := by
      have := mul_le_mul_of_nonneg_right hfrac1 (show (0:ℚ) ≤ (b : ℚ) * step - (a : ℚ) * step by linarith)
      simpa using this
    linarith
  have hq_lb : (a : ℚ) ≤ raw / step := by
    rw [le_div_iff₀ hs]; simpa using hraw_lb
  have hq_ub : raw / step ≤ (b : ℚ) := by
    rw [div_le_iff₀ hs]; simpa using hraw_ub
  have hhalf : ⌊(1 / 2 : ℚ)⌋ = 0 := by
    rw [Int.floor_eq_zero_iff]; constructor <;> norm_num
  have hk_lb : a ≤ jsRound (raw / step) := by
    have h1 : (a : ℚ) + 1 / 2 ≤ raw / step + 1 / 2 := by linarith
    have h2 := Int.floor_mono h1
    rwa [Int.floor_int_add, hhalf, add_zero] at h2
  have hk_ub : jsRound (raw / step) ≤ b := by
    have h1 : raw / step + 1 / 2 ≤ (b : ℚ) + 1 / 2 := by linarith
    have h2 := Int.floor_mono h1
    rwa [Int.floor_int_add, hhalf, add_zero] at h2
  have hout : getValueFromEvent (some ⟨l, w⟩) value ((a : ℚ) * step) ((b : ℚ) * step) step clientX
      = (jsRound (raw / step) : ℚ) * step := rfl
  refine ⟨?_, ?_, ?_⟩
  · rw [hout]
    exact mul_le_mul_of_nonneg_right (by exact_mod_cast hk_lb) hs.le
  · rw [hout]
    exact mul_le_mul_of_nonneg_right (by exact_mod_cast hk_ub) hs.le
  · refine ⟨(jsRound (raw / step) - a).toNat, ?_⟩
    rw [hout]
    have hnn : 0 ≤ jsRound (raw / step) - a := by omega
    have hcast : ((jsRound (raw / step) - a).toNat : ℚ) = ((jsRound (raw / step) : ℤ) : ℚ) - (a : ℚ) := by
      rw [← Int.cast_natCast, Int.toNat_of_nonneg hnn]
      push_cast
      ring
    rw [hcast]
    ring

/-- C3, witness (the spec's worked example): `min = 0`, `max = 100000`,
`step = 500`, track from pixel 100 with width 500, pointer at 350. -/
theorem c3_witness :
    (0 : ℚ) ≤ getValueFromEvent (some ⟨100, 500⟩) 0 0 100000 500 350 ∧
      getValueFromEvent (some ⟨100, 500⟩) 0 0 100000 500 350 ≤ 100000 ∧
      ∃ k : ℕ, getValueFromEvent (some ⟨100, 500⟩) 0 0 100000 500 350 = 0 + (k : ℚ) * 500 := by
  exact c3_quantized_in_range 100 500 0 0 100000 500 350 (by norm_num) (by norm_num)
    ⟨0, by norm_num⟩ ⟨200, by norm_num⟩ (by norm_num)

/-! ### C6: the drag state machine -/

/-- C6, counterexample: in the reachable dragging state with value 50
(after a pointer-down at 50 on a track of width 100 with `min = 0`,
`max = 100`, `step = 1`), a pointer-move at the same coordinate recomputes the
same value 50 and still invokes the change callback — the code emits
unconditionally while dragging, not only "if changed". -/
theorem gve_mid_is_fifty (value : ℚ) :
    getValueFromEvent (some ⟨0, 100⟩) value 0 100 1 50 = 50 := by
  have hk : ⌊((0 : ℚ) + max 0 (min 1 (((50 : ℚ) - 0) / 100)) * (100 - 0)) / 1 + 1 / 2⌋
      = 50 := by
    have h1 : ((0 : ℚ) + max 0 (min 1 (((50 : ℚ) - 0) / 100)) * (100 - 0)) / 1 + 1 / 2
        = 101 / 2 := by
      norm_num [min_def, max_def]
    rw [h1, Int.floor_eq_iff]
    constructor <;> norm_num
  have h := getValueFromEvent_eval 0 100 value 0 100 1 50 50 hk
  rw [h]; norm_num

theorem c6_counterexample :
    Reaches ⟨0, 100, 1⟩ ⟨0, false⟩ ⟨50, true⟩ ∧
      (⟨50, true⟩ : SliderState).value = 50 ∧
      (sliderStep ⟨0, 100, 1⟩ ⟨50, true⟩ (.move (some ⟨0, 100⟩) 50)).2 = some 50 := by
  refine ⟨?_, rfl, ?_⟩
  · refine @Reaches.tail ⟨0, 100, 1⟩ ⟨0, false⟩ ⟨0, false⟩ ⟨50, true⟩
      (.down (some ⟨0, 100⟩) 50) (some 50) Reaches.refl ?_
    simp only [sliderStep]
    rw [gve_mid_is_fifty]
  · simp [sliderStep, gve_mid_is_fifty]

/-- C6 (corrected): in every reachable state of the slider state machine,
`handlePointerMove` never invokes the change callback when `isDragging` is
false (before any pointer-down or after pointer-up/cancel) and leaves the
state unchanged; while `isDragging` is true it recomputes the value from the
pointer x-coordinate and emits it unconditionally (even when it equals the
current value). -/
theorem c6_move_emission (cfg : SliderConfig) (v0 : ℚ) (s : SliderState)
    (_reach : Reaches cfg ⟨v0, false⟩ s) (track : Option Rect) (x : ℚ) :
    (s.isDragging = false → sliderStep cfg s (.move track x) = (s, none)) ∧
      (s.isDragging = true →
        sliderStep cfg s (.move track x) =
          (⟨getValueFromEvent track s.value cfg.vmin cfg.vmax cfg.step x, true⟩,
            some (getValueFromEvent track s.value cfg.vmin cfg.vmax cfg.step x))) := by
  constructor <;> intro hd <;> simp [sliderStep, hd]

/-- C6, witness: from the initial (reachable, non-dragging) state, a
pointer-move has no effect and emits nothing. -/
theorem c6_witness :
    sliderStep ⟨0, 100, 1⟩ ⟨0, false⟩ (.move none 5) = (⟨0, false⟩, none) :=
  (c6_move_emission ⟨0, 100, 1⟩ 0 ⟨0, false⟩ Reaches.refl none 5).1 rfl

/-! ### More evaluation helpers -/

theorem loanInterestR_of_not_pos_amount (i : Inputs) (h : ¬ 0 < i.loanAmount) :
    loanInterestR i = 0 := by
  rw [loanInterestR, if_neg (fun hc => h hc.1)]

theorem annualized_of_zero_cost_nonpos (i : Inputs) (hpl : 0 ≤ i.programLength)
    (hc : totalCost i = .num 0)
    (hle : ∀ t : ℝ, totalReturn i = .num t → t ≤ 0) : annualizedROI i = .num 0 := by
  rcases totalReturn_numOrNan i hpl with hnan | ⟨t, ht⟩
  · rw [annualizedROI, grossRatioVal, hnan, hc, jdiv_nan_left, if_neg]
    exact fun h => h
  · have ht0 : t ≤ 0 := hle t ht
    rcases ht0.lt_or_eq with htneg | rfl
    · rw [annualizedROI, grossRatioVal, ht, hc, jdiv_num_zero_neg htneg, if_neg]
      exact fun h => h
    · rw [annualizedROI, grossRatioVal, ht, hc, jdiv_num_zero_zero, if_neg]
      exact fun h => h

theorem annualized_of_zero_cost_pos (i : Inputs) {t : ℝ} (hc : totalCost i = .num 0)
    (ht : totalReturn i = .num t) (htpos : 0 < t) : annualizedROI i = .posInf := by
  rw [annualizedROI, grossRatioVal, ht, hc, jdiv_num_zero_pos htpos,
    if_pos (show jgtZero JSVal.posInf from True.intro),
    jdiv_num_num _ (by norm_num : (10:ℝ) ≠ 0), jpow_posInf_pos (by norm_num : (0:ℝ) < 1 / 10),
    show jsub .posInf (.num 1) = .posInf from rfl]
  simp only [jmul]
  rw [if_pos (by norm_num : (0:ℝ) < 100)]

/-! ### C8: the 10-year salary advantage formula -/

/-- C8 (confirmed): the 10-year salary advantage equals
`∑_{y=1..10} postSalary0·(1+realPostGrowth)^(y−1) − preSalary0·(1+realPreGrowth)^(y−1+monthsAway/12)`,
i.e. the counterfactual pre-degree salary includes fractional-year growth for
the months out of the workforce.  Stated for months-away ≥ 0 and a pre-MBA
growth ratio ≥ 0 (`realPreGrowth ≥ −1`), the domain on which the real-number
formula is the meaning of the float computation (outside it the code produces
NaN — see the C4 counterexample). -/
theorem c8_salary_advantage (i : Inputs)
    (hb : -1 ≤ (i.preMbaWageGrowth - i.inflation) / 100) (hpl : 0 ≤ i.programLength) :
    (calculateROI i).salaryEdge
      = .num (∑ y ∈ Finset.Icc 1 10, (specPostSalary i y - specPreSalary i y)) := by
  rw [calculateROI_salaryEdge, salaryEdge_eq i hb hpl]
  congr 1
  rw [← Nat.Ico_succ_right, Finset.sum_Ico_eq_sum_range]
  refine Finset.sum_congr rfl ?_
  intro y _
  simp only [specPostSalary, specPreSalary, salaryTermR]
  have h1 : ((1 + y : ℕ) : ℝ) - 1 = (y : ℝ) := by push_cast; ring
  rw [h1]

/-- C8, witness: the formula instantiated at the concrete record
`exTuitionOne` (both hypotheses hold there). -/
theorem c8_witness :
    (calculateROI exTuitionOne).salaryEdge
      = .num (∑ y ∈ Finset.Icc 1 10,
          (specPostSalary exTuitionOne y - specPreSalary exTuitionOne y)) :=
  c8_salary_advantage exTuitionOne (by norm_num [exTuitionOne]) (by norm_num [exTuitionOne])

/-! ### C5: the loan-interest formula and its guards -/

/-- C5 (confirmed): when loan amount > 0, the floored real rate > 0 (i.e. the
nominal interest rate exceeds inflation) and loan term > 0, the loan interest
is `P×n − L` with `P = L×(r×(1+r)^n)/((1+r)^n − 1)`,
`r = max((interestRate − inflation)/100, 0)/12` and `n = loanTerm×12`;
whenever the nominal rate is at or below inflation, or any of the three
preconditions fails, the loan interest is exactly 0. -/
theorem c5_loan_interest (i : Inputs) :
    (0 < i.loanAmount → i.inflation < i.interestRate → 0 < i.loanTerm →
        (calculateROI i).loanInterest
          = .num (specLoanInterest i.loanAmount
              (max ((i.interestRate - i.inflation) / 100) 0 / 12) (i.loanTerm * 12))) ∧
      (i.interestRate ≤ i.inflation → (calculateROI i).loanInterest = .num 0) ∧
      (¬ (0 < i.loanAmount ∧ 0 < max ((i.interestRate - i.inflation) / 100) 0 ∧
            0 < i.loanTerm) →
        (calculateROI i).loanInterest = .num 0) := by
  rw [calculateROI_loanInterest, loanInterest_eq]
  refine ⟨?_, ?_, ?_⟩
  · intro hL hir hT
    have hrr : 0 < realRateR i := by
      rw [realRateR]
      exact lt_max_iff.mpr (Or.inl (div_pos (by linarith) (by norm_num)))
    rw [loanInterestR, if_pos ⟨hL, hrr, hT⟩]
    simp only [amort, specLoanInterest, specMonthlyPayment, realRateR]
  · intro hle
    have hrr : realRateR i = 0 := by
      rw [realRateR, max_eq_right]
      exact div_nonpos_of_nonpos_of_nonneg (by linarith) (by norm_num)
    rw [loanInterestR, if_neg]
    rintro ⟨-, h2, -⟩
    rw [hrr] at h2
    exact lt_irrefl 0 h2
  · intro hnot
    rw [loanInterestR, if_neg]
    exact fun hc => hnot hc

/-- C5, witness: at the record `exTuitionOne` the nominal rate (0) is at or
below inflation (0), so the loan interest is exactly 0. -/
theorem c5_witness : (calculateROI exTuitionOne).loanInterest = .num 0 :=
  (c5_loan_interest exTuitionOne).2.1 (by norm_num [exTuitionOne])

/-! ### Evaluations at the concrete input records -/

theorem totalCost_exHalfReturn : (calculateROI exHalfReturn).totalCost = .num 100 := by
  rw [calculateROI_totalCost, totalCost_eq,
    loanInterestR_of_not_pos_amount _ (by norm_num [exHalfReturn])]
  norm_num [exHalfReturn]

theorem salaryEdge_exHalfReturn : (calculateROI exHalfReturn).salaryEdge = .num 50 := by
  rw [calculateROI_salaryEdge,
    salaryEdge_eq _ (by norm_num [exHalfReturn]) (by norm_num [exHalfReturn])]
  congr 1
  have hterm : ∀ y ∈ Finset.range 10, salaryTermR exHalfReturn y = 5 := by
    intro y _
    simp only [salaryTermR, exHalfReturn]
    norm_num [Real.one_rpow]
  rw [Finset.sum_congr rfl hterm]
  norm_num

theorem totalReturn_exHalfReturn : (calculateROI exHalfReturn).totalReturn = .num 50 := by
  have hse := salaryEdge_exHalfReturn
  rw [calculateROI_salaryEdge] at hse
  rw [calculateROI_totalReturn, totalReturn, hse, bonusCompounded_eq, jadd_num_num]
  norm_num [exHalfReturn]

theorem totalCost_exTuitionOne : (calculateROI exTuitionOne).totalCost = .num 1 := by
  rw [calculateROI_totalCost, totalCost_eq,
    loanInterestR_of_not_pos_amount _ (by norm_num [exTuitionOne])]
  norm_num [exTuitionOne]

theorem salaryEdge_exTuitionOne : (calculateROI exTuitionOne).salaryEdge = .num 0 := by
  rw [calculateROI_salaryEdge,
    salaryEdge_eq _ (by norm_num [exTuitionOne]) (by norm_num [exTuitionOne])]
  congr 1
  have hterm : ∀ y ∈ Finset.range 10, salaryTermR exTuitionOne y = 0 := by
    intro y _
    simp only [salaryTermR, exTuitionOne]
    norm_num
  rw [Finset.sum_congr rfl hterm]
  simp

theorem totalReturn_exTuitionOne : (calculateROI exTuitionOne).totalReturn = .num 0 := by
  have hse := salaryEdge_exTuitionOne
  rw [calculateROI_salaryEdge] at hse
  rw [calculateROI_totalReturn, totalReturn, hse, bonusCompounded_eq, jadd_num_num]
  norm_num [exTuitionOne]

theorem totalCost_exZeroCost : (calculateROI exZeroCost).totalCost = .num 0 := by
  rw [calculateROI_totalCost, totalCost_eq,
    loanInterestR_of_not_pos_amount _ (by norm_num [exZeroCost])]
  norm_num [exZeroCost]

theorem salaryEdge_exZeroCost : (calculateROI exZeroCost).salaryEdge = .num 100 := by
  rw [calculateROI_salaryEdge,
    salaryEdge_eq _ (by norm_num [exZeroCost]) (by norm_num [exZeroCost])]
  congr 1
  have hterm : ∀ y ∈ Finset.range 10, salaryTermR exZeroCost y = 10 := by
    intro y _
    simp only [salaryTermR, exZeroCost]
    norm_num [Real.one_rpow]
  rw [Finset.sum_congr rfl hterm]
  norm_num

theorem totalReturn_exZeroCost : (calculateROI exZeroCost).totalReturn = .num 100 := by
  have hse := salaryEdge_exZeroCost
  rw [calculateROI_salaryEdge] at hse
  rw [calculateROI_totalReturn, totalReturn, hse, bonusCompounded_eq, jadd_num_num]
  norm_num [exZeroCost]

/-! ### C2: annualized ROI when total return does not exceed total cost -/

/-- C2, counterexample: at `exHalfReturn` the total cost is 100 > 0 and the
total return is 50 ≤ 100, but the annualized ROI is
`((1/2)^(1/10) − 1)·100 < 0`, not 0: the claim "annualized return is 0
whenever total return ≤ total cost" fails for `0 < return < cost`. -/
theorem c2_counterexample :
    (calculateROI exHalfReturn).totalCost = .num 100 ∧
      (calculateROI exHalfReturn).totalReturn = .num 50 ∧
      (calculateROI exHalfReturn).annualizedROI ≠ .num 0 := by
  refine ⟨totalCost_exHalfReturn, totalReturn_exHalfReturn, ?_⟩
  have hc := totalCost_exHalfReturn
  have ht := totalReturn_exHalfReturn
  rw [calculateROI_totalCost] at hc
  rw [calculateROI_totalReturn] at ht
  rw [calculateROI_annualizedROI, annualizedROI, grossRatioVal, hc, ht,
    jdiv_num_num _ (by norm_num : (100:ℝ) ≠ 0),
    if_pos (show jgtZero (JSVal.num ((50:ℝ) / 100)) from by rw [jgtZero_num]; norm_num),
    jdiv_num_num _ (by norm_num : (10:ℝ) ≠ 0), jpow_num_pos (by norm_num : (0:ℝ) < 50 / 100),
    jsub_num_num, jmul_num_num]
  intro h
  have h' : (((50:ℝ) / 100) ^ ((1:ℝ) / 10) - 1) * 100 = 0 := by
    injection h
  have hlt : ((50:ℝ) / 100) ^ ((1:ℝ) / 10) < 1 :=
    Real.rpow_lt_one (by norm_num) (by norm_num) (by norm_num)
  nlinarith

/-- C2 (corrected): with positive (finite) total cost `c` and finite total
projected return `t ≤ c`, the annualized ROI is a finite number ≤ 0, and it is
exactly 0 precisely in the regime `t ≤ 0` (for `0 < t < c` it is strictly
between and generally non-zero — see the counterexample). -/
theorem c2_annualized_nonpos (i : Inputs) (c t : ℝ)
    (hc : (calculateROI i).totalCost = .num c) (hcpos : 0 < c)
    (ht : (calculateROI i).totalReturn = .num t) (htc : t ≤ c) :
    (calculateROI i).annualizedROI.isFinite ∧
      (calculateROI i).annualizedROI.toReal ≤ 0 ∧
      (t ≤ 0 → (calculateROI i).annualizedROI = .num 0) := by
  rw [calculateROI_totalCost] at hc
  rw [calculateROI_totalReturn] at ht
  rw [calculateROI_annualizedROI, annualizedROI, grossRatioVal, hc, ht,
    jdiv_num_num _ hcpos.ne']
  by_cases hpos : 0 < t / c
  · rw [if_pos (show jgtZero (JSVal.num (t / c)) from hpos)]
    rw [jdiv_num_num _ (by norm_num : (10:ℝ) ≠ 0), jpow_num_pos hpos, jsub_num_num,
      jmul_num_num]
    have hle1 : t / c ≤ 1 := (div_le_one hcpos).mpr htc
    have hr1 : (t / c) ^ ((1:ℝ) / 10) ≤ 1 := Real.rpow_le_one hpos.le hle1 (by norm_num)
    refine ⟨trivial, ?_, ?_⟩
    · show ((t / c) ^ ((1:ℝ) / 10) - 1) * 100 ≤ 0
      nlinarith
    · intro ht0
      exact absurd hpos
        (not_lt.mpr (div_nonpos_of_nonpos_of_nonneg ht0 hcpos.le))
  · rw [if_neg (show ¬ jgtZero (JSVal.num (t / c)) from hpos)]
    exact ⟨trivial, le_of_eq rfl, fun _ => rfl⟩

/-- C2, witness: at `exTuitionOne` (total cost 1, total return 0 ≤ 1 with
0 ≤ 0) the annualized ROI is exactly 0. -/
theorem c2_witness : (calculateROI exTuitionOne).annualizedROI = .num 0 :=
  (c2_annualized_nonpos exTuitionOne 1 0 totalCost_exTuitionOne (by norm_num)
      totalReturn_exTuitionOne (by norm_num)).2.2 le_rfl

/-! ### C1: annualized ROI at zero total cost -/

/-- C1, counterexample: at `exZeroCost` (all fields non-negative, total cost
exactly 0, total projected return 100 > 0) the annualized ROI is `+Infinity`,
not 0: `grossRatio = 100 / 0 = +Infinity` passes the `grossRatio > 0` guard
and `(Infinity^(1/10) − 1) * 100 = Infinity`. -/
theorem c1_counterexample :
    (calculateROI exZeroCost).totalCost = .num 0 ∧
      (calculateROI exZeroCost).annualizedROI = .posInf ∧
      (calculateROI exZeroCost).annualizedROI ≠ .num 0 := by
  have hc := totalCost_exZeroCost
  have ht := totalReturn_exZeroCost
  rw [calculateROI_totalCost] at hc
  rw [calculateROI_totalReturn] at ht
  have hinf : (calculateROI exZeroCost).annualizedROI = .posInf := by
    rw [calculateROI_annualizedROI]
    exact annualized_of_zero_cost_pos exZeroCost hc ht (by norm_num)
  exact ⟨totalCost_exZeroCost, hinf, by rw [hinf]; exact fun h => JSVal.noConfusion h⟩

/-- C1 (corrected): for an input record with non-negative months-away whose
computed total cost is exactly 0, the annualized ROI is reported as 0 only
when the total projected return is not a positive number (it is then `NaN`,
`0/0 = NaN`, or negative); when the total projected return is positive, the
gross ratio is `+Infinity` and the annualized ROI is reported as `+Infinity`,
not 0. -/
theorem c1_zero_total_cost (i : Inputs) (hpl : 0 ≤ i.programLength)
    (hc : (calculateROI i).totalCost = .num 0) :
    ((∀ t : ℝ, (calculateROI i).totalReturn = .num t → t ≤ 0) →
        (calculateROI i).annualizedROI = .num 0) ∧
      (∀ t : ℝ, (calculateROI i).totalReturn = .num t → 0 < t →
        (calculateROI i).annualizedROI = .posInf) := by
  rw [calculateROI_totalCost] at hc
  constructor
  · intro hle
    rw [calculateROI_annualizedROI]
    exact annualized_of_zero_cost_nonpos i hpl hc
      (fun t ht => hle t (by rwa [calculateROI_totalReturn]))
  · intro t ht htpos
    rw [calculateROI_totalReturn] at ht
    rw [calculateROI_annualizedROI]
    exact annualized_of_zero_cost_pos i hc ht htpos

/-- C1, witness: the theorem applied at `exZeroCost` (total cost 0, total
return 100 > 0) yields the `+Infinity` branch. -/
theorem c1_witness : (calculateROI exZeroCost).annualizedROI = .posInf :=
  (c1_zero_total_cost exZeroCost (by norm_num [exZeroCost]) totalCost_exZeroCost).2
    100 totalReturn_exZeroCost (by norm_num)

/-! ### C4: finiteness of the result fields -/

/-- C4, counterexample: `exNanGrowth` satisfies every documented
non-negativity constraint (inflation may be any real), yet
`salaryEdge` and `netROI` are NaN: the growth ratio `1 + (0−200)/100 = −1` is
negative and the exponent `y − 1 + 1/12` is not an integer, so `Math.pow`
returns NaN, which propagates. -/
theorem c4_counterexample :
    (calculateROI exNanGrowth).salaryEdge = .nan ∧
      ¬ (calculateROI exNanGrowth).netROI.isFinite := by
  have hse : salaryEdge exNanGrowth = .nan := by
    apply salaryEdge_nan
    · norm_num [exNanGrowth]
    · rintro ⟨k, hk⟩
      rw [show exNanGrowth.programLength = 1 from rfl] at hk
      have h12 : ((12 * k : ℤ) : ℝ) = ((1 : ℤ) : ℝ) := by push_cast; rw [hk]; norm_num
      have h' : (12 * k : ℤ) = 1 := Int.cast_injective h12
      omega
  constructor
  · rw [calculateROI_salaryEdge, hse]
  · rw [calculateROI_netROI, netROI, totalReturn, hse, jadd_nan_left, jsub_nan_left]
    exact fun h => h

/-- C4 (corrected): every field of the result is a finite number provided that,
in addition to the non-negativity constraints (months-away ≥ 0), the pre-MBA
growth ratio is non-negative (`(preMbaWageGrowth − inflation)/100 ≥ −1`, i.e.
inflation does not exceed the pre-MBA wage growth by more than 100 points) and
the computed total cost is positive.  Outside this domain NaN (negative growth
ratio to a fractional power) or `+Infinity` (positive return over zero cost)
occurs — see the counterexample and C1. -/
theorem c4_all_finite (i : Inputs) (hpl : 0 ≤ i.programLength)
    (hb : -1 ≤ (i.preMbaWageGrowth - i.inflation) / 100)
    (hc : jgtZero ((calculateROI i).totalCost)) :
    (calculateROI i).annualizedROI.isFinite ∧
      (calculateROI i).netROI.isFinite ∧
      (calculateROI i).totalCost.isFinite ∧
      (calculateROI i).tuitionExpenses.isFinite ∧
      (calculateROI i).loanInterest.isFinite ∧
      (calculateROI i).forgoneIncome.isFinite ∧
      (calculateROI i).totalReturn.isFinite ∧
      (calculateROI i).salaryEdge.isFinite ∧
      (calculateROI i).bonusCompounded.isFinite := by
  have hse := salaryEdge_eq i hb hpl
  have htr : totalReturn i
      = .num ((∑ y ∈ Finset.range 10, salaryTermR i y)
          + i.signingBonus * (1 + (5.5 - i.inflation) / 100) ^ (10:ℝ)) := by
    rw [totalReturn, hse, bonusCompounded_eq, jadd_num_num]
  have hc' : jgtZero (totalCost i) := hc
  rw [totalCost_eq] at hc'
  have hcpos : (0:ℝ)
      < i.tuitionAndExpenses + i.preMbaSalary / 12 * i.programLength + loanInterestR i := hc'
  refine ⟨?_, ?_, ?_, trivial, ?_, ?_, ?_, ?_, ?_⟩
  · rw [calculateROI_annualizedROI, annualizedROI, grossRatioVal, htr, totalCost_eq,
      jdiv_num_num _ hcpos.ne']
    by_cases hq : jgtZero (JSVal.num
        (((∑ y ∈ Finset.range 10, salaryTermR i y)
            + i.signingBonus * (1 + (5.5 - i.inflation) / 100) ^ (10:ℝ))
          / (i.tuitionAndExpenses + i.preMbaSalary / 12 * i.programLength + loanInterestR i)))
    · rw [if_pos hq, jdiv_num_num _ (by norm_num : (10:ℝ) ≠ 0), jpow_num_pos hq,
        jsub_num_num, jmul_num_num]
      trivial
    · rw [if_neg hq]; trivial
  · rw [calculateROI_netROI, netROI, htr, totalCost_eq, jsub_num_num]; trivial
  · rw [calculateROI_totalCost, totalCost_eq]; trivial
  · rw [calculateROI_loanInterest, loanInterest_eq]; trivial
  · rw [calculateROI_forgoneIncome, forgoneIncome_eq]; trivial
  · rw [calculateROI_totalReturn, htr]; trivial
  · rw [calculateROI_salaryEdge, hse]; trivial
  · rw [calculateROI_bonusCompounded, bonusCompounded_eq]; trivial

/-- C4, witness: at `exTuitionOne` (months-away 0, growth ratio 1 ≥ 0, total
cost 1 > 0) every result field is finite. -/
theorem c4_witness :
    (calculateROI exTuitionOne).annualizedROI.isFinite ∧
      (calculateROI exTuitionOne).netROI.isFinite ∧
      (calculateROI exTuitionOne).totalCost.isFinite ∧
      (calculateROI exTuitionOne).tuitionExpenses.isFinite ∧
      (calculateROI exTuitionOne).loanInterest.isFinite ∧
      (calculateROI exTuitionOne).forgoneIncome.isFinite ∧
      (calculateROI exTuitionOne).totalReturn.isFinite ∧
      (calculateROI exTuitionOne).salaryEdge.isFinite ∧
      (calculateROI exTuitionOne).bonusCompounded.isFinite :=
  c4_all_finite exTuitionOne (by norm_num [exTuitionOne]) (by norm_num [exTuitionOne])
    (by rw [totalCost_exTuitionOne]; exact (by norm_num : (0:ℝ) < 1))

/-! ### C7: loan interest is monotone in the interest rate

The mathematical core: the total amortization payment
`n·m·(1+m)^n/((1+m)^n − 1) = n·m/(1 − (1+m)^{−n})` is non-decreasing in the
monthly rate `m > 0`, because `x ↦ x^(−n)` is convex on `(0, ∞)` and therefore
the secant slope `((1+m)^{−n} − 1)/m` from the point `1` is non-decreasing in
`m`; and it is at least the principal by the Bernoulli bound
`1 − n·m ≤ (1+m)^{−n}`. -/

theorem rpow_const_convexOn {c : ℝ} (hc : c ≤ 0) :
    ConvexOn ℝ (Set.Ioi (0:ℝ)) (fun x : ℝ => x ^ c) := by
  have hderiv : ∀ x ∈ Set.Ioi (0:ℝ), HasDerivAt (fun x : ℝ => x ^ c) (c * x ^ (c - 1)) x :=
    fun x hx => Real.hasDerivAt_rpow_const (Or.inl (ne_of_gt hx))
  have hcont : ContinuousOn (fun x : ℝ => x ^ c) (Set.Ioi 0) :=
    fun x hx => ((hderiv x hx).differentiableAt).continuousAt.continuousWithinAt
  have hDiff : DifferentiableOn ℝ (fun x : ℝ => x ^ c) (interior (Set.Ioi 0)) := by
    rw [interior_Ioi]
    exact fun x hx => (hderiv x hx).differentiableAt.differentiableWithinAt
  apply MonotoneOn.convexOn_of_deriv (convex_Ioi 0) hcont hDiff
  rw [interior_Ioi]
  intro x hx y hy hxy
  rw [(hderiv x hx).deriv, (hderiv y hy).deriv]
  have hxpos : (0:ℝ) < x := hx
  have hypos : (0:ℝ) < y := hy
  have hmono : y ^ (c - 1) ≤ x ^ (c - 1) := by
    rw [show (c - 1 : ℝ) = -(1 - c) by ring, Real.rpow_neg hypos.le, Real.rpow_neg hxpos.le]
    exact inv_anti₀ (Real.rpow_pos_of_pos hxpos _)
      (Real.rpow_le_rpow hxpos.le hxy (by linarith))
  exact mul_le_mul_of_nonpos_left hmono hc

theorem one_sub_mul_le_rpow_neg {m n : ℝ} (hm : 0 ≤ m) (hn : 0 ≤ n) :
    1 - n * m ≤ (1 + m) ^ (-n : ℝ) := by
  have hderiv : ∀ x ∈ Set.Ioi (0:ℝ),
      HasDerivAt (fun x : ℝ => (1 + x) ^ (-n : ℝ) + n * x)
        (-n * (1 + x) ^ (-n - 1) * 1 + n * 1) x := by
    intro x hx
    have hx0 : (0:ℝ) < x := hx
    have h1 : HasDerivAt (fun x : ℝ => 1 + x) 1 x := by
      simpa using (hasDerivAt_id x).const_add 1
    have h2 : HasDerivAt (fun y : ℝ => y ^ (-n : ℝ)) (-n * (1 + x) ^ (-n - 1)) (1 + x) :=
      Real.hasDerivAt_rpow_const (Or.inl (by linarith : (1:ℝ) + x ≠ 0))
    exact (h2.comp x h1).add ((hasDerivAt_id x).const_mul n)
  have hmono : MonotoneOn (fun x : ℝ => (1 + x) ^ (-n : ℝ) + n * x) (Set.Ici 0) := by
    apply monotoneOn_of_deriv_nonneg (convex_Ici 0)
    · intro x hx
      have hx0 : (0:ℝ) ≤ x := hx
      have hca : ContinuousAt (fun x : ℝ => (1 + x) ^ (-n : ℝ)) x := by
        have hc1 : ContinuousAt (fun x : ℝ => 1 + x) x := by fun_prop
        have hc2 : ContinuousAt (fun y : ℝ => y ^ (-n : ℝ)) (1 + x) :=
          Real.continuousAt_rpow_const _ _ (Or.inl (by linarith))
        exact hc2.comp hc1
      exact (hca.add (by fun_prop : ContinuousAt (fun x : ℝ => n * x) x)).continuousWithinAt
    · rw [interior_Ici]
      exact fun x hx => ((hderiv x hx).differentiableAt).differentiableWithinAt
    · rw [interior_Ici]
      intro x hx
      rw [(hderiv x hx).deriv]
      have hx0 : (0:ℝ) < x := hx
      have hle1 : (1 + x) ^ (-n - 1 : ℝ) ≤ 1 :=
        Real.rpow_le_one_of_one_le_of_nonpos (by linarith) (by linarith)
      have hge0 : (0:ℝ) ≤ (1 + x) ^ (-n - 1 : ℝ) := Real.rpow_nonneg (by linarith) _
      nlinarith
  have h := hmono (Set.mem_Ici.mpr (le_refl (0:ℝ))) (Set.mem_Ici.mpr hm) hm
  have h0 : ((1:ℝ) + 0) ^ (-n : ℝ) + n * 0 = 1 := by
    norm_num [Real.one_rpow]
  have h1 : ((1:ℝ) + 0) ^ (-n : ℝ) + n * 0 ≤ (1 + m) ^ (-n : ℝ) + n * m := h
  rw [h0] at h1
  linarith

theorem amort_nonneg {L m n : ℝ} (hL : 0 < L) (hm : 0 < m) (hn : 0 < n) :
    0 ≤ amort L m n := by
  have hbase : (0:ℝ) < 1 + m := by linarith
  have hP1 : (1:ℝ) < (1 + m) ^ n :=
    (Real.one_lt_rpow_iff_of_pos hbase).mpr (Or.inl ⟨by linarith, hn⟩)
  have hPpos : (0:ℝ) < (1 + m) ^ n := by linarith
  have hB := one_sub_mul_le_rpow_neg hm.le hn.le
  rw [Real.rpow_neg hbase.le] at hB
  have hkey : (1 + m) ^ n - 1 ≤ n * m * (1 + m) ^ n := by
    have h1 := mul_le_mul_of_nonneg_right hB hPpos.le
    rw [inv_mul_cancel₀ hPpos.ne'] at h1
    nlinarith
  rw [amort, sub_nonneg, div_mul_eq_mul_div, le_div_iff₀ (by linarith : (0:ℝ) < (1 + m) ^ n - 1)]
  nlinarith [mul_le_mul_of_nonneg_left hkey hL.le]

theorem amort_mono {L m₁ m₂ n : ℝ} (hL : 0 < L) (hm₁ : 0 < m₁) (h12 : m₁ ≤ m₂) (hn : 0 < n) :
    amort L m₁ n ≤ amort L m₂ n := by
  have hm₂ : 0 < m₂ := lt_of_lt_of_le hm₁ h12
  have hb₁ : (0:ℝ) < 1 + m₁ := by linarith
  have hb₂ : (0:ℝ) < 1 + m₂ := by linarith
  have hP₁1 : (1:ℝ) < (1 + m₁) ^ n :=
    (Real.one_lt_rpow_iff_of_pos hb₁).mpr (Or.inl ⟨by linarith, hn⟩)
  have hP₂1 : (1:ℝ) < (1 + m₂) ^ n :=
    (Real.one_lt_rpow_iff_of_pos hb₂).mpr (Or.inl ⟨by linarith, hn⟩)
  have hP₁pos : (0:ℝ) < (1 + m₁) ^ n := by linarith
  have hP₂pos : (0:ℝ) < (1 + m₂) ^ n := by linarith
  have hsec := (rpow_const_convexOn (show -n ≤ (0:ℝ) by linarith)).secant_mono
    (a := 1) (x := 1 + m₁) (y := 1 + m₂)
    (Set.mem_Ioi.mpr one_pos) (Set.mem_Ioi.mpr hb₁) (Set.mem_Ioi.mpr hb₂)
    (ne_of_gt (by linarith : (1:ℝ) < 1 + m₁)) (ne_of_gt (by linarith : (1:ℝ) < 1 + m₂))
    (by linarith : (1:ℝ) + m₁ ≤ 1 + m₂)
  simp only [Real.one_rpow] at hsec
  rw [show (1:ℝ) + m₁ - 1 = m₁ by ring, show (1:ℝ) + m₂ - 1 = m₂ by ring,
    Real.rpow_neg hb₁.le, Real.rpow_neg hb₂.le] at hsec
  rw [div_le_div_iff₀ hm₁ hm₂] at hsec
  have e₁ : ((1 + m₁) ^ n)⁻¹ * (1 + m₁) ^ n = 1 := inv_mul_cancel₀ hP₁pos.ne'
  have e₂ : ((1 + m₂) ^ n)⁻¹ * (1 + m₂) ^ n = 1 := inv_mul_cancel₀ hP₂pos.ne'
  have h2 := mul_le_mul_of_nonneg_right hsec (le_of_lt (mul_pos hP₁pos hP₂pos))
  have h3 : (((1 + m₁) ^ n)⁻¹ - 1) * m₂ * ((1 + m₁) ^ n * (1 + m₂) ^ n)
      = (1 - (1 + m₁) ^ n) * (m₂ * (1 + m₂) ^ n) := by
    have expand : (((1 + m₁) ^ n)⁻¹ - 1) * m₂ * ((1 + m₁) ^ n * (1 + m₂) ^ n)
        = ((1 + m₁) ^ n)⁻¹ * (1 + m₁) ^ n * (m₂ * (1 + m₂) ^ n)
          - (1 + m₁) ^ n * (m₂ * (1 + m₂) ^ n) := by ring
    rw [expand, e₁]; ring
  have h4 : (((1 + m₂) ^ n)⁻¹ - 1) * m₁ * ((1 + m₁) ^ n * (1 + m₂) ^ n)
      = (1 - (1 + m₂) ^ n) * (m₁ * (1 + m₁) ^ n) := by
    have expand : (((1 + m₂) ^ n)⁻¹ - 1) * m₁ * ((1 + m₁) ^ n * (1 + m₂) ^ n)
        = ((1 + m₂) ^ n)⁻¹ * (1 + m₂) ^ n * (m₁ * (1 + m₁) ^ n)
          - (1 + m₂) ^ n * (m₁ * (1 + m₁) ^ n) := by ring
    rw [expand, e₂]; ring
  rw [h3, h4] at h2
  have hD₁ : (0:ℝ) < (1 + m₁) ^ n - 1 := by linarith
  have hD₂ : (0:ℝ) < (1 + m₂) ^ n - 1 := by linarith
  have hfrac : m₁ * (1 + m₁) ^ n / ((1 + m₁) ^ n - 1)
      ≤ m₂ * (1 + m₂) ^ n / ((1 + m₂) ^ n - 1) := by
    rw [div_le_div_iff₀ hD₁ hD₂]
    nlinarith [h2]
  rw [amort, amort]
  have hgoal : L * (m₁ * (1 + m₁) ^ n) / ((1 + m₁) ^ n - 1) * n
      ≤ L * (m₂ * (1 + m₂) ^ n) / ((1 + m₂) ^ n - 1) * n := by
    apply mul_le_mul_of_nonneg_right _ hn.le
    calc L * (m₁ * (1 + m₁) ^ n) / ((1 + m₁) ^ n - 1)
        = L * (m₁ * (1 + m₁) ^ n / ((1 + m₁) ^ n - 1)) := by ring
      _ ≤ L * (m₂ * (1 + m₂) ^ n / ((1 + m₂) ^ n - 1)) :=
          mul_le_mul_of_nonneg_left hfrac hL.le
      _ = L * (m₂ * (1 + m₂) ^ n) / ((1 + m₂) ^ n - 1) := by ring
  linarith

/-- C7 (confirmed): holding every other input fixed (with non-negative loan
amount and loan term), the loan interest computed by `calculateROI` is
monotonically non-decreasing in the interest rate: for `r₁ ≤ r₂` the (always
finite) loan interests satisfy `a ≤ b`. -/
theorem c7_loan_interest_monotone (i : Inputs) (r₁ r₂ a b : ℝ) (h12 : r₁ ≤ r₂)
    (_hL : 0 ≤ i.loanAmount) (_hT : 0 ≤ i.loanTerm)
    (ha : (calculateROI { i with interestRate := r₁ }).loanInterest = .num a)
    (hb : (calculateROI { i with interestRate := r₂ }).loanInterest = .num b) :
    a ≤ b := by
  rw [calculateROI_loanInterest, loanInterest_eq] at ha hb
  obtain rfl : loanInterestR { i with interestRate := r₁ } = a := JSVal.num.inj ha
  obtain rfl : loanInterestR { i with interestRate := r₂ } = b := JSVal.num.inj hb
  have hrr_mono : realRateR { i with interestRate := r₁ }
      ≤ realRateR { i with interestRate := r₂ } := by
    rw [realRateR, realRateR]
    exact max_le_max ((div_le_div_iff_of_pos_right (by norm_num)).mpr (by linarith)) le_rfl
  rw [loanInterestR, loanInterestR]
  by_cases h₂ : 0 < ({ i with interestRate := r₂ } : Inputs).loanAmount ∧
      0 < realRateR { i with interestRate := r₂ } ∧
      0 < ({ i with interestRate := r₂ } : Inputs).loanTerm
  · rw [if_pos h₂]
    obtain ⟨hL₂, hr₂, hT₂⟩ := h₂
    by_cases hr₁ : 0 < realRateR { i with interestRate := r₁ }
    · rw [if_pos ⟨hL₂, hr₁, hT₂⟩]
      exact amort_mono hL₂ (div_pos hr₁ (by norm_num))
        ((div_le_div_iff_of_pos_right (by norm_num)).mpr hrr_mono)
        (mul_pos hT₂ (by norm_num))
    · rw [if_neg (fun hc => hr₁ hc.2.1)]
      exact amort_nonneg hL₂ (div_pos hr₂ (by norm_num)) (mul_pos hT₂ (by norm_num))
  · rw [if_neg h₂, if_neg (fun hc => h₂ ⟨hc.1, lt_of_lt_of_le hc.2.1 hrr_mono, hc.2.2⟩)]

/-- C7, witness: at `exTuitionOne` (loan amount 0) with rates `0 ≤ 1`, both
loan interests are 0 and the theorem yields `0 ≤ 0`. -/
theorem c7_witness :
    (calculateROI { exTuitionOne with interestRate := 0 }).loanInterest = .num 0 ∧
      (calculateROI { exTuitionOne with interestRate := 1 }).loanInterest = .num 0 ∧
      (0:ℝ) ≤ 0 := by
  have h₁ : (calculateROI { exTuitionOne with interestRate := 0 }).loanInterest = .num 0 := by
    rw [calculateROI_loanInterest, loanInterest_eq,
      loanInterestR_of_not_pos_amount _ (by norm_num [exTuitionOne])]
  have h₂ : (calculateROI { exTuitionOne with interestRate := 1 }).loanInterest = .num 0 := by
    rw [calculateROI_loanInterest, loanInterest_eq,
      loanInterestR_of_not_pos_amount _ (by norm_num [exTuitionOne])]
  exact ⟨h₁, h₂, c7_loan_interest_monotone exTuitionOne 0 1 0 0 (by norm_num)
    (by norm_num [exTuitionOne]) (by norm_num [exTuitionOne]) h₁ h₂⟩

end Roi
